import Mathlib

/-!
# pichi: HTTP CONNECT adapters (`include/pichi/net/http.hpp`)

A shallow embedding of the declarations of `http.hpp`: the constant
`detail::HEADER_LIMIT`, the placeholder callback `detail::badInvoking`, and the
constructors of `HttpIngress` and `HttpEgress`.  Machine integers are natural
numbers reduced modulo `2 ^ w`; a C++ exception is the `error` side of `Except`.
-/

namespace pichi

/-- Octets: the element type of `std::string` and of the byte buffers. -/
abbrev Byte := Fin 256

/-- Byte strings (`std::string`, `std::string_view`). -/
abbrev Str := List Byte

/-- Error kinds of the adapters. `MISC` is the kind of a generic failure. -/
inductive PichiError where
  | MISC
  | MalformedHeader
  | HeaderTooLarge
  | BadRequest
  | AuthenticationFailed
  | ConnectFailed
  | ProxyConnectFailed (code : Nat)
  deriving DecidableEq, Repr

/-- The exception object thrown by the adapters: an error kind and a message. -/
structure Exception where
  error : PichiError
  message : String
  deriving DecidableEq, Repr

/-- Modelled from the spec: `fail` of `pichi/asserts.hpp`, which is not part of
the sources at hand.  It is the placeholder-failure primitive: it never returns
and raises a generic failure that carries the message it was given. -/
def fail {R : Type} (message : String) : Except Exception R :=
  Except.error { error := PichiError.MISC, message := message }

namespace net

/-- The suspension handle threaded through every I/O operation. -/
structure Yield where
  id : Nat
  deriving DecidableEq, Repr

/-- Read-only byte buffer (`ConstBuffer<uint8_t>`). -/
abbrev ConstBuffer := List Byte

/-- Writable byte buffer (`MutableBuffer<uint8_t>`). -/
abbrev MutableBuffer := List Byte

namespace detail

/-- Byte cache of a parser (`boost::beast::flat_buffer`). -/
abbrev Cache := List Byte

/-- Largest value of `uint64_t` (`std::numeric_limits<uint64_t>::max()`). -/
def UINT64_MAX : Nat := 2 ^ 64 - 1

/-- Width in bits of `unsigned long`, the type of the literals `1024ul`. -/
def ULONG_BITS : Nat := 64

/-- Product of two `unsigned long` values: arithmetic modulo `2 ^ bits`. -/
def mulUnsignedLong (bits a b : Nat) : Nat := (a * b) % 2 ^ bits

/-- Conversion of an unsigned value to `uint32_t`. -/
def toUInt32 (v : Nat) : Nat := v % 2 ^ 32

/-- Header limit for a given width of `unsigned long`:
`uint32_t const HEADER_LIMIT = 1024ul * 1024ul`. -/
def headerLimitFor (bits : Nat) : Nat := toUInt32 (mulUnsignedLong bits 1024 1024)

/-- The constant `inline uint32_t const HEADER_LIMIT = 1024ul * 1024ul;`. -/
def HEADER_LIMIT : Nat := headerLimitFor ULONG_BITS

/-- Modelled from the spec: the configuration held by
`boost::beast::http::parser<isRequest, empty_body>`, a type declared outside the
sources at hand: a header limit (a `uint32_t`) and a body limit (a `uint64_t`). -/
structure Parser (isRequest : Bool) where
  header_limit_ : Nat
  body_limit_ : Nat
  deriving DecidableEq, Repr

/-- The alias `using RequestParser = Parser<true>`. -/
abbrev RequestParser := Parser true

/-- The alias `using ResponseParser = Parser<false>`. -/
abbrev ResponseParser := Parser false

/-- Setter `parser.header_limit(v)`; the argument is a `uint32_t`. -/
def Parser.header_limit {b : Bool} (p : Parser b) (v : Nat) : Parser b :=
  { p with header_limit_ := v % 2 ^ 32 }

/-- Setter `parser.body_limit(v)`; the argument is a `uint64_t`. -/
def Parser.body_limit {b : Bool} (p : Parser b) (v : Nat) : Parser b :=
  { p with body_limit_ := v % 2 ^ 64 }

/-- The template `template <typename R, typename... Args> R badInvoking(Args&&...)`:
whatever the arguments, the body is `fail("Bad invocation"sv)`. -/
def badInvoking {R Args : Type} (_args : Args) : Except Exception R :=
  fail "Bad invocation"

end detail

/-- Credentials of the ingress, `std::unordered_map<std::string, std::string>`,
as an association list from user name to password. -/
abbrev Credentials := List (Str × Str)

/-- Credential of the egress, `std::pair<std::string, std::string>`. -/
abbrev Credential := Str × Str

/-- The class template `HttpIngress<Stream>`: its data members, in declaration order. -/
structure HttpIngress (Stream : Type) where
  stream_ : Stream
  reqParser_ : detail.RequestParser
  reqCache_ : detail.Cache
  respParser_ : detail.ResponseParser
  respCache_ : detail.Cache
  confirm_ : Yield → Except Exception Unit
  send_ : ConstBuffer → Yield → Except Exception Unit
  recv_ : MutableBuffer → Yield → Except Exception Nat
  credentials_ : Credentials

/-- Constructor `HttpIngress(Credentials credentials, Args&&... args)`.

`construct` is the constructor of `Stream` applied to the forwarded pack: it gets
the arguments by forwarding reference, so it returns the stream together with the
argument values as it leaves them.  `reqParser0` and `respParser0` are the
default-constructed parsers of the library. -/
def HttpIngress.ctor {Stream Args : Type} (construct : Args → Stream × Args)
    (reqParser0 : detail.RequestParser) (respParser0 : detail.ResponseParser)
    (credentials : Credentials) (args : Args) : HttpIngress Stream :=
  let stream := (construct args).1
  let confirm : Yield → Except Exception Unit := fun y => detail.badInvoking y
  let send : ConstBuffer → Yield → Except Exception Unit := fun b y => detail.badInvoking (b, y)
  let recv : MutableBuffer → Yield → Except Exception Nat := fun b y => detail.badInvoking (b, y)
  let reqParser := reqParser0.header_limit detail.HEADER_LIMIT
  let reqParser := reqParser.body_limit detail.UINT64_MAX
  let respParser := respParser0.header_limit detail.HEADER_LIMIT
  let respParser := respParser.body_limit detail.UINT64_MAX
  { stream_ := stream
    reqParser_ := reqParser
    reqCache_ := []
    respParser_ := respParser
    respCache_ := []
    confirm_ := confirm
    send_ := send
    recv_ := recv
    credentials_ := credentials }

/-- Value of the member `std::add_pointer_t<Stream> stream_` of `HttpEgress`: a raw
pointer, which is null or the address of one of the two owned streams. -/
inductive StreamPtr where
  | null
  | origin
  | backup
  deriving DecidableEq, Repr

/-- The class template `HttpEgress<Stream>`: its data members, in declaration order. -/
structure HttpEgress (Stream : Type) where
  origin_ : Stream
  backup_ : Stream
  stream_ : StreamPtr
  send_ : ConstBuffer → Yield → Except Exception Unit
  recv_ : MutableBuffer → Yield → Except Exception Nat
  reqParser_ : detail.RequestParser
  reqCache_ : detail.Cache
  respParser_ : detail.ResponseParser
  respCache_ : detail.Cache
  credential_ : Option Credential

/-- Constructor `HttpEgress(std::optional<Credential> credential, Args&&... args)`.

The member initialisers run in declaration order: `origin_` is built from the
forwarded pack first, then `backup_` from the pack forwarded again, that is from
the argument values as the first construction left them. -/
def HttpEgress.ctor {Stream Args : Type} (construct : Args → Stream × Args)
    (reqParser0 : detail.RequestParser) (respParser0 : detail.ResponseParser)
    (credential : Option Credential) (args : Args) : HttpEgress Stream :=
  let r1 := construct args
  let r2 := construct r1.2
  let send : ConstBuffer → Yield → Except Exception Unit := fun b y => detail.badInvoking (b, y)
  let recv : MutableBuffer → Yield → Except Exception Nat := fun b y => detail.badInvoking (b, y)
  let reqParser := reqParser0.header_limit detail.HEADER_LIMIT
  let reqParser := reqParser.body_limit detail.UINT64_MAX
  let respParser := respParser0.header_limit detail.HEADER_LIMIT
  let respParser := respParser.body_limit detail.UINT64_MAX
  { origin_ := r1.1
    backup_ := r2.1
    stream_ := StreamPtr.origin
    send_ := send
    recv_ := recv
    reqParser_ := reqParser
    reqCache_ := []
    respParser_ := respParser
    respCache_ := []
    credential_ := credential }

end net

end pichi

namespace pichi

/-- The octet with value `n` modulo 256. -/
def toByte (n : Nat) : Byte := ⟨n % 256, Nat.mod_lt n (by decide)⟩

/-- The bytes of an ASCII literal. -/
def ofString (s : String) : Str := s.toList.map (fun c => toByte c.toNat)

namespace crypto

/-- The padding character `=` of base64. -/
def PAD : Byte := 61

/-- The base64 alphabet (RFC 4648): the character of a 6-bit value. -/
def base64Char (i : Nat) : Byte :=
  if i < 26 then toByte (65 + i)
  else if i < 52 then toByte (97 + (i - 26))
  else if i < 62 then toByte (48 + (i - 52))
  else if i = 62 then 43
  else 47

/-- The 6-bit value of a character of the base64 alphabet, if it is one. -/
def base64Index (c : Byte) : Option Nat :=
  if 65 ≤ c.val ∧ c.val ≤ 90 then some (c.val - 65)
  else if 97 ≤ c.val ∧ c.val ≤ 122 then some (c.val - 97 + 26)
  else if 48 ≤ c.val ∧ c.val ≤ 57 then some (c.val - 48 + 52)
  else if c.val = 43 then some 62
  else if c.val = 47 then some 63
  else none

/-- Modelled from the spec: the base64 encoding `base64(username:password)` of the
`Proxy-Authorization` header, a helper that is not part of the sources at hand;
the standard padded encoding of RFC 4648. -/
def base64Encode : List Byte → List Byte
  | [] => []
  | [a] => [base64Char (a.val / 4), base64Char (a.val % 4 * 16), PAD, PAD]
  | [a, b] =>
      [base64Char (a.val / 4), base64Char (a.val % 4 * 16 + b.val / 16),
        base64Char (b.val % 16 * 4), PAD]
  | a :: b :: c :: rest =>
      base64Char (a.val / 4) :: base64Char (a.val % 4 * 16 + b.val / 16) ::
        base64Char (b.val % 16 * 4 + c.val / 64) :: base64Char (c.val % 64) ::
        base64Encode rest

/-- Modelled from the spec: the base64 decoding applied to the credentials of a
`Proxy-Authorization` header, a helper that is not part of the sources at hand.
It accepts exactly the padded encodings of RFC 4648; anything else is malformed. -/
def base64Decode : List Byte → Option (List Byte)
  | [] => some []
  | c1 :: c2 :: c3 :: c4 :: rest =>
      if rest = [] ∧ c4 = PAD then
        if c3 = PAD then
          match base64Index c1, base64Index c2 with
          | some i1, some i2 =>
              if i2 % 16 = 0 then some [toByte (i1 * 4 + i2 / 16)] else none
          | _, _ => none
        else
          match base64Index c1, base64Index c2, base64Index c3 with
          | some i1, some i2, some i3 =>
              if i3 % 4 = 0 then
                some [toByte (i1 * 4 + i2 / 16), toByte (i2 % 16 * 16 + i3 / 4)]
              else none
          | _, _, _ => none
      else
        match base64Index c1, base64Index c2, base64Index c3, base64Index c4 with
        | some i1, some i2, some i3, some i4 =>
            match base64Decode rest with
            | some tail =>
                some (toByte (i1 * 4 + i2 / 16) :: toByte (i2 % 16 * 16 + i3 / 4) ::
                  toByte (i3 % 4 * 64 + i4) :: tail)
            | none => none
        | _, _, _, _ => none
  | _ => none

end crypto

end pichi

namespace pichi

/-- Raise a failure of the given kind (`fail(PichiError)` of `pichi/asserts.hpp`,
modelled like `fail`). -/
def failWith {R : Type} (error : PichiError) : Except Exception R :=
  Except.error { error := error, message := "" }

namespace net

/-- Target of a handshake: a host and a port. -/
structure Endpoint where
  host : Str
  port : Nat
  deriving DecidableEq, Repr

/-- Names of header fields: the one the adapters look at, and all the others. -/
inductive Field where
  | proxy_authorization
  | other (name : Str)
  deriving DecidableEq, Repr

/-- Request methods: `CONNECT` and all the others. -/
inductive Verb where
  | connect
  | other (name : Str)
  deriving DecidableEq, Repr

/-- The byte `:` that separates user name and password, host and port. -/
def COLON : Byte := 58

/-- The scheme that starts the value of a `Proxy-Authorization` header. -/
def BASIC : Str := ofString "Basic "

namespace detail

/-- Modelled from the spec: `boost::beast::http::header<isRequest>`, a type declared
outside the sources at hand: the start line (method and target of a request,
status code of a response) and the header fields in order. -/
structure Header (isRequest : Bool) where
  method : Verb
  target : Str
  status : Nat
  fields : List (Field × Str)
  deriving DecidableEq, Repr

/-- Value of the first field with the given name. -/
def Header.find {b : Bool} (h : Header b) (name : Field) : Option Str :=
  h.fields.lookup name

/-- Position of the first header terminator `CR LF CR LF` in a byte cache. -/
def findTerminator : Str → Option Nat
  | a :: b :: c :: d :: rest =>
      if a = 13 ∧ b = 10 ∧ c = 13 ∧ d = 10 then some 0
      else (findTerminator (b :: c :: d :: rest)).map (fun i => i + 1)
  | _ => none

/-- What the Header Codec reports when it does not fail. -/
inductive Parsed (isRequest : Bool) where
  | needMore
  | complete (consumed : Nat) (header : Header isRequest)
  deriving DecidableEq, Repr

/-- Modelled from the spec: one call of the Header Codec (`parseRequest`,
`parseResponse`) on the bytes accumulated so far; the parser implementation is
not part of the sources at hand.  It fails with `HeaderTooLarge` once the
accumulated header bytes exceed the header limit, fails with `MalformedHeader` when
a fully buffered header violates the grammar, reports a complete header with the
number of bytes consumed, and otherwise asks for more input.  `grammar` is the
HTTP header grammar. -/
def Parser.put {b : Bool} (p : Parser b) (grammar : Str → Option (Header b))
    (cache : Cache) : Except Exception (Parsed b) :=
  match findTerminator cache with
  | none =>
      if p.header_limit_ < cache.length then failWith PichiError.HeaderTooLarge
      else pure Parsed.needMore
  | some i =>
      if p.header_limit_ < i + 4 then failWith PichiError.HeaderTooLarge
      else
        match grammar (cache.take (i + 4)) with
        | none => failWith PichiError.MalformedHeader
        | some h => pure (Parsed.complete (i + 4) h)

/-- Modelled from the spec: the adapters read from the stream until the Header
Codec reports a complete header.  Every chunk read is appended to the cache and
the codec is called on the accumulation; the bytes after the header stay in the
cache. -/
def readHeader {b : Bool} (p : Parser b) (grammar : Str → Option (Header b)) :
    Cache → List Str → Except Exception (Parsed b × Cache)
  | cache, [] => pure (Parsed.needMore, cache)
  | cache, chunk :: rest =>
      match p.put grammar (cache ++ chunk) with
      | Except.error e => Except.error e
      | Except.ok Parsed.needMore => readHeader p grammar (cache ++ chunk) rest
      | Except.ok (Parsed.complete n h) =>
          pure (Parsed.complete n h, (cache ++ chunk).drop n)

/-- Remove a leading byte sequence, if the string starts with it. -/
def stripLeading : Str → Str → Option Str
  | [], s => some s
  | _ :: _, [] => none
  | x :: xs, c :: cs => if x = c then stripLeading xs cs else none

/-- Split `username:password` at the first colon. -/
def splitCredential : Str → Option (Str × Str)
  | [] => none
  | c :: rest =>
      if c = COLON then some ([], rest)
      else (splitCredential rest).map (fun up => (c :: up.1, up.2))

end detail

/-- Modelled from the spec: `HttpIngress::authenticate`, declared in `http.hpp` and
defined outside the sources at hand.  It requires a header
`Proxy-Authorization: Basic <base64(username:password)>` whose decoded value
matches an entry of the credentials; a missing, malformed or non-matching header
fails authentication. -/
def HttpIngress.authenticate {Stream : Type} (self : HttpIngress Stream)
    (header : detail.Header true) : Except Exception Unit :=
  match header.find Field.proxy_authorization with
  | none => failWith PichiError.AuthenticationFailed
  | some value =>
      match detail.stripLeading BASIC value with
      | none => failWith PichiError.AuthenticationFailed
      | some encoded =>
          match crypto.base64Decode encoded with
          | none => failWith PichiError.AuthenticationFailed
          | some plain =>
              match detail.splitCredential plain with
              | none => failWith PichiError.AuthenticationFailed
              | some (user, password) =>
                  if self.credentials_.lookup user = some password then pure ()
                  else failWith PichiError.AuthenticationFailed

/-- States of the ingress adapter. -/
inductive IngressState where
  | AwaitingRequest
  | Authenticating
  | Confirming
  | Tunneling
  | Closed
  deriving DecidableEq, Repr

/-- An ingress adapter in use: the object, its state, the target it parsed and
the status codes of the responses it has written to the client. -/
structure IngressSession (Stream : Type) where
  ingress : HttpIngress Stream
  state : IngressState
  remote : Option Endpoint
  written : List Nat

/-- The session of a freshly constructed adapter. -/
def IngressSession.fresh {Stream : Type} (ingress : HttpIngress Stream) :
    IngressSession Stream :=
  { ingress := ingress, state := IngressState.AwaitingRequest, remote := none, written := [] }

/-- Status code of the error response for a failure: 407 for a failed
authentication, 400 otherwise. -/
def errorStatus (e : Exception) : Nat :=
  if e.error = PichiError.AuthenticationFailed then 407 else 400

/-- The session after a failed handshake: the error response is written and the
adapter is closed. -/
def IngressSession.reject {Stream : Type} (s : IngressSession Stream) (e : Exception) :
    Except Exception Unit × IngressSession Stream :=
  (Except.error e, { s with state := IngressState.Closed, written := s.written ++ [errorStatus e] })

/-- Modelled from the spec: the part of `HttpIngress::confirm` that follows the
complete request header; `confirm` is declared in `http.hpp` and defined outside
the sources at hand.  The method must be `CONNECT`, the target must parse as
host:port (`parseEndpoint`), and when a non-empty credentials mapping is
configured the request must authenticate.  On success a 200 response is written
and the adapter tunnels; on failure the error response is written and the adapter
is closed. -/
def HttpIngress.confirmRequest {Stream : Type} (parseEndpoint : Str → Option Endpoint)
    (s : IngressSession Stream) (req : detail.Header true) :
    Except Exception Unit × IngressSession Stream :=
  if req.method ≠ Verb.connect then s.reject { error := PichiError.BadRequest, message := "" }
  else
    match parseEndpoint req.target with
    | none => s.reject { error := PichiError.BadRequest, message := "" }
    | some remote =>
        let checked : Except Exception Unit :=
          if s.ingress.credentials_ = [] then pure () else s.ingress.authenticate req
        match checked with
        | Except.error e => s.reject e
        | Except.ok _ =>
            (pure (), { s with state := IngressState.Tunneling, remote := some remote,
                               written := s.written ++ [200] })

/-- The read and write operations of the transport stream. -/
structure StreamIO (Stream : Type) where
  read : Stream → MutableBuffer → Yield → Except Exception Nat
  write : Stream → ConstBuffer → Yield → Except Exception Unit

/-- States of the egress adapter. -/
inductive EgressState where
  | Idle
  | ConnectingOrigin
  | HandshakingOrigin
  | Tunneling
  | FailingOverToBackup
  | Closed
  deriving DecidableEq, Repr

/-- An egress adapter in use: the object, its state, which of its two streams are
open, and the handshake requests it has written. -/
structure EgressSession (Stream : Type) where
  egress : HttpEgress Stream
  state : EgressState
  originOpen : Bool
  backupOpen : Bool
  sent : List (detail.Header true)

/-- The session of a freshly constructed adapter. -/
def EgressSession.fresh {Stream : Type} (egress : HttpEgress Stream) : EgressSession Stream :=
  { egress := egress, state := EgressState.Idle, originOpen := false, backupOpen := false,
    sent := [] }

/-- What the other side does during `connect`: whether the transport connects,
whether the destination requires the CONNECT handshake, and what the Header Codec
yields for the response of the upstream. -/
structure Upstream where
  reachable : Bool
  handshake : Bool
  reply : Except Exception (detail.Header false)

/-- The CONNECT request of the egress handshake, with a `Proxy-Authorization`
header when a credential is present. -/
def connectRequest (credential : Option Credential) (next : Endpoint) : detail.Header true :=
  { method := Verb.connect
    target := next.host ++ [COLON] ++ ofString (toString next.port)
    status := 0
    fields :=
      match credential with
      | none => []
      | some (user, password) =>
          [(Field.proxy_authorization, BASIC ++ crypto.base64Encode (user ++ [COLON] ++ password))] }

/-- The session after a failed `connect`: terminal, with both streams closed. -/
def EgressSession.abort {Stream : Type} (s : EgressSession Stream) (e : Exception) :
    Except Exception Unit × EgressSession Stream :=
  (Except.error e,
    { s with state := EgressState.Closed, originOpen := false, backupOpen := false })

/-- Modelled from the spec: `HttpEgress::connect`, declared in `http.hpp` and defined
outside the sources at hand.  A transport failure is `ConnectFailed`.  When the
destination requires no handshake the backup stream becomes the active path and
the origin stream is closed.  Otherwise the CONNECT request is written and the
response parsed: a 2xx status makes the adapter tunnel over the origin stream,
any other status fails with `ProxyConnectFailed` carrying the status code, which
is terminal.  A second call is a programming error. -/
def HttpEgress.connect {Stream : Type} (io : StreamIO Stream) (s : EgressSession Stream)
    (_endpoint next : Endpoint) (up : Upstream) :
    Except Exception Unit × EgressSession Stream :=
  if s.state ≠ EgressState.Idle then (failWith PichiError.MISC, s)
  else if up.reachable = false then
    s.abort { error := PichiError.ConnectFailed, message := "" }
  else if up.handshake = false then
    (pure (),
      { s with
        egress := { s.egress with
                    stream_ := StreamPtr.backup
                    send_ := io.write s.egress.backup_
                    recv_ := io.read s.egress.backup_ }
        state := EgressState.Tunneling
        originOpen := false
        backupOpen := true })
  else
    let s1 := { s with originOpen := true
                       sent := s.sent ++ [connectRequest s.egress.credential_ next] }
    match up.reply with
    | Except.error e => s1.abort e
    | Except.ok response =>
        if 200 ≤ response.status ∧ response.status < 300 then
          (pure (),
            { s1 with
              egress := { s1.egress with
                          stream_ := StreamPtr.origin
                          send_ := io.write s1.egress.origin_
                          recv_ := io.read s1.egress.origin_ }
              state := EgressState.Tunneling
              originOpen := true
              backupOpen := false })
        else
          s1.abort { error := PichiError.ProxyConnectFailed response.status, message := "" }

/-- Whether the stream the selector designates is open in a tunnelling session. -/
def EgressSession.usable {Stream : Type} (s : EgressSession Stream) : Bool :=
  decide (s.state = EgressState.Tunneling) &&
    (match s.egress.stream_ with
     | StreamPtr.origin => s.originOpen
     | StreamPtr.backup => s.backupOpen
     | StreamPtr.null => false)

/-- Modelled from the spec: `HttpEgress::readable`. -/
def HttpEgress.readable {Stream : Type} (s : EgressSession Stream) : Bool := s.usable

/-- Modelled from the spec: `HttpEgress::writable`. -/
def HttpEgress.writable {Stream : Type} (s : EgressSession Stream) : Bool := s.usable

/-- Modelled from the spec: `HttpEgress::recv`, which goes through the stored
callback `recv_`. -/
def HttpEgress.recv {Stream : Type} (s : EgressSession Stream) (buf : MutableBuffer)
    (yield : Yield) : Except Exception Nat :=
  s.egress.recv_ buf yield

/-- Modelled from the spec: `HttpEgress::send`, which goes through the stored
callback `send_`. -/
def HttpEgress.send {Stream : Type} (s : EgressSession Stream) (buf : ConstBuffer)
    (yield : Yield) : Except Exception Unit :=
  s.egress.send_ buf yield

/-- A stream that takes ownership of the resource it is built from, such as a TLS
stream built from a context passed as an rvalue. -/
structure OwningStream where
  resource : Option Nat
  deriving DecidableEq, Repr

/-- Constructor `OwningStream(Resource&& r) : resource{std::move(r)}`: the argument
is left moved-from (empty). -/
def OwningStream.construct (arg : Option Nat) : OwningStream × Option Nat :=
  ({ resource := arg }, none)

/-- A stream built from a reference it only reads, such as a socket built from
`io_context&`. -/
structure PlainStream where
  context : Nat
  deriving DecidableEq, Repr

/-- Constructor `PlainStream(Context& c)`: the argument is left as it was. -/
def PlainStream.construct (arg : Nat) : PlainStream × Nat :=
  ({ context := arg }, arg)

/-- The credentials mapping `{alice: secret}`. -/
def aliceCredentials : Credentials := [(ofString "alice", ofString "secret")]

/-- The request `CONNECT example.com:443` with the given value of the
`Proxy-Authorization` header. -/
def connectWith (authorization : String) : detail.Header true :=
  { method := Verb.connect
    target := ofString "example.com:443"
    status := 0
    fields := [(Field.other (ofString "Host"), ofString "example.com:443"),
               (Field.proxy_authorization, ofString authorization)] }

/-- The request `CONNECT example.com:443` without a `Proxy-Authorization` header. -/
def connectPlain : detail.Header true :=
  { method := Verb.connect
    target := ofString "example.com:443"
    status := 0
    fields := [(Field.other (ofString "Host"), ofString "example.com:443")] }

/-- A target parser for the sample requests: it accepts `example.com:443` only. -/
def sampleParseEndpoint (target : Str) : Option Endpoint :=
  if target = ofString "example.com:443" then
    some { host := ofString "example.com", port := 443 }
  else none

/-- Stream operations for the sample streams: reads fill the buffer, writes succeed. -/
def sampleIO : StreamIO PlainStream :=
  { read := fun _ buf _ => pure buf.length
    write := fun _ _ _ => pure () }

/-- An upstream that is reachable, requires the handshake and replies with the
given status code. -/
def upstreamReplying (status : Nat) : Upstream :=
  { reachable := true
    handshake := true
    reply := Except.ok { method := Verb.other [], target := [], status := status, fields := [] } }

/-- A chunk of `HEADER_LIMIT + 1` bytes `A`, with no header terminator in it. -/
def oversizedChunk : Str := List.replicate (detail.HEADER_LIMIT + 1) 65

/-- A request parser as it is before the constructor configures it. -/
def sampleRequestParser : detail.RequestParser :=
  { header_limit_ := 8192, body_limit_ := 1048576 }

/-- A response parser as it is before the constructor configures it. -/
def sampleResponseParser : detail.ResponseParser :=
  { header_limit_ := 8192, body_limit_ := 8388608 }

end net

end pichi

namespace pichi.crypto

theorem base64Index_base64Char (i : Nat) (h : i < 64) :
    base64Index (base64Char i) = some i := by
  have key : ∀ j : Fin 64, base64Index (base64Char j.val) = some j.val := by decide
  exact key ⟨i, h⟩

theorem base64Char_ne_PAD (i : Nat) (h : i < 64) : base64Char i ≠ PAD := by
  have key : ∀ j : Fin 64, base64Char j.val ≠ PAD := by decide
  exact key ⟨i, h⟩

set_option maxRecDepth 100000 in
theorem base64Index_sound (c : Byte) (i : Nat) (h : base64Index c = some i) :
    i < 64 ∧ base64Char i = c := by
  have key : ∀ d : Byte,
      (base64Index d).all (fun j => decide (j < 64 ∧ base64Char j = d)) = true := by decide
  have hc := key c
  rw [h] at hc
  simpa using hc

theorem toByte_val (a : Byte) : toByte a.val = a := by
  apply Fin.ext
  simp [toByte]

theorem base64Decode_base64Encode (bs : List Byte) :
    base64Decode (base64Encode bs) = some bs := by
  induction bs using base64Encode.induct with
  | case1 => simp [base64Encode, base64Decode]
  | case2 a =>
      have ha := a.isLt
      have h1 : base64Index (base64Char (a.val / 4)) = some (a.val / 4) :=
        base64Index_base64Char _ (by omega)
      have h2 : base64Index (base64Char (a.val % 4 * 16)) = some (a.val % 4 * 16) :=
        base64Index_base64Char _ (by omega)
      have e : a.val / 4 * 4 + a.val % 4 * 16 / 16 = a.val := by omega
      simp [base64Encode, base64Decode, h1, h2, e, toByte_val]
      apply Fin.ext
      simp [toByte]
      omega
  | case3 a b =>
      have ha := a.isLt
      have hb := b.isLt
      have h1 : base64Index (base64Char (a.val / 4)) = some (a.val / 4) :=
        base64Index_base64Char _ (by omega)
      have h2 : base64Index (base64Char (a.val % 4 * 16 + b.val / 16))
          = some (a.val % 4 * 16 + b.val / 16) :=
        base64Index_base64Char _ (by omega)
      have h3 : base64Index (base64Char (b.val % 16 * 4)) = some (b.val % 16 * 4) :=
        base64Index_base64Char _ (by omega)
      have n3 : base64Char (b.val % 16 * 4) ≠ PAD := base64Char_ne_PAD _ (by omega)
      have e1 : a.val / 4 * 4 + (a.val % 4 * 16 + b.val / 16) / 16 = a.val := by omega
      have e2 : (a.val % 4 * 16 + b.val / 16) % 16 * 16 + b.val % 16 * 4 / 4 = b.val := by
        omega
      simp [base64Encode, base64Decode, h1, h2, h3, n3, e1, e2, toByte_val]
      apply Fin.ext
      simp [toByte]
      omega
  | case4 a b c rest ih =>
      have ha := a.isLt
      have hb := b.isLt
      have hc := c.isLt
      have h1 : base64Index (base64Char (a.val / 4)) = some (a.val / 4) :=
        base64Index_base64Char _ (by omega)
      have h2 : base64Index (base64Char (a.val % 4 * 16 + b.val / 16))
          = some (a.val % 4 * 16 + b.val / 16) :=
        base64Index_base64Char _ (by omega)
      have h3 : base64Index (base64Char (b.val % 16 * 4 + c.val / 64))
          = some (b.val % 16 * 4 + c.val / 64) :=
        base64Index_base64Char _ (by omega)
      have h4 : base64Index (base64Char (c.val % 64)) = some (c.val % 64) :=
        base64Index_base64Char _ (by omega)
      have n4 : base64Char (c.val % 64) ≠ PAD := base64Char_ne_PAD _ (by omega)
      have e1 : a.val / 4 * 4 + (a.val % 4 * 16 + b.val / 16) / 16 = a.val := by omega
      have e2 : (a.val % 4 * 16 + b.val / 16) % 16 * 16 + (b.val % 16 * 4 + c.val / 64) / 4
          = b.val := by omega
      have e3 : (b.val % 16 * 4 + c.val / 64) % 4 * 64 + c.val % 64 = c.val := by omega
      simp [base64Encode, base64Decode, h1, h2, h3, h4, n4, e1, e2, e3, toByte_val, ih]

theorem toByte_val_of_lt (n : Nat) (h : n < 256) : (toByte n).val = n := by
  simp [toByte]
  omega

theorem base64Encode_of_base64Decode_aux (n : Nat) :
    ∀ s bs : List Byte, s.length ≤ n → base64Decode s = some bs → base64Encode bs = s := by
  induction n with
  | zero =>
      intro s bs hlen h
      have : s = [] := List.length_eq_zero.mp (by omega)
      subst this
      simp [base64Decode] at h
      subst h
      rfl
  | succ n ih =>
      intro s bs hlen h
      match s, hlen, h with
      | [], _, h =>
          simp [base64Decode] at h
          subst h
          rfl
      | [_], _, h => simp [base64Decode] at h
      | [_, _], _, h => simp [base64Decode] at h
      | [_, _, _], _, h => simp [base64Decode] at h
      | c1 :: c2 :: c3 :: c4 :: rest, hlen, h =>
          rw [base64Decode] at h
          by_cases hp : rest = [] ∧ c4 = PAD
          · rw [if_pos hp] at h
            obtain ⟨hr, h4⟩ := hp
            subst hr
            subst h4
            by_cases h3 : c3 = PAD
            · rw [if_pos h3] at h
              subst h3
              cases hi1 : base64Index c1 with
              | none => simp [hi1] at h
              | some i1 =>
                cases hi2 : base64Index c2 with
                | none => simp [hi1, hi2] at h
                | some i2 =>
                  obtain ⟨b1, k1⟩ := base64Index_sound c1 i1 hi1
                  obtain ⟨b2, k2⟩ := base64Index_sound c2 i2 hi2
                  simp only [hi1, hi2] at h
                  by_cases hz : i2 % 16 = 0
                  · rw [if_pos hz] at h
                    injection h with h
                    subst h
                    have hv := toByte_val_of_lt (i1 * 4 + i2 / 16) (by omega)
                    have q1 : (i1 * 4 + i2 / 16) / 4 = i1 := by omega
                    have q2 : (i1 * 4 + i2 / 16) % 4 * 16 = i2 := by omega
                    simp [base64Encode, hv, q1, q2, k1, k2]
                  · rw [if_neg hz] at h
                    exact absurd h (by simp)
            · rw [if_neg h3] at h
              cases hi1 : base64Index c1 with
              | none => simp [hi1] at h
              | some i1 =>
                cases hi2 : base64Index c2 with
                | none => simp [hi1, hi2] at h
                | some i2 =>
                  cases hi3 : base64Index c3 with
                  | none => simp [hi1, hi2, hi3] at h
                  | some i3 =>
                    obtain ⟨b1, k1⟩ := base64Index_sound c1 i1 hi1
                    obtain ⟨b2, k2⟩ := base64Index_sound c2 i2 hi2
                    obtain ⟨b3, k3⟩ := base64Index_sound c3 i3 hi3
                    simp only [hi1, hi2, hi3] at h
                    by_cases hz : i3 % 4 = 0
                    · rw [if_pos hz] at h
                      injection h with h
                      subst h
                      have hv1 := toByte_val_of_lt (i1 * 4 + i2 / 16) (by omega)
                      have hv2 := toByte_val_of_lt (i2 % 16 * 16 + i3 / 4) (by omega)
                      have q1 : (i1 * 4 + i2 / 16) / 4 = i1 := by omega
                      have q2 : (i1 * 4 + i2 / 16) % 4 * 16 + (i2 % 16 * 16 + i3 / 4) / 16
                          = i2 := by omega
                      have q3 : (i2 % 16 * 16 + i3 / 4) % 16 * 4 = i3 := by omega
                      simp [base64Encode, hv1, hv2, q1, q2, q3, k1, k2, k3]
                    · rw [if_neg hz] at h
                      exact absurd h (by simp)
          · rw [if_neg hp] at h
            cases hi1 : base64Index c1 with
            | none => simp [hi1] at h
            | some i1 =>
              cases hi2 : base64Index c2 with
              | none => simp [hi1, hi2] at h
              | some i2 =>
                cases hi3 : base64Index c3 with
                | none => simp [hi1, hi2, hi3] at h
                | some i3 =>
                  cases hi4 : base64Index c4 with
                  | none => simp [hi1, hi2, hi3, hi4] at h
                  | some i4 =>
                    cases hd : base64Decode rest with
                    | none => simp [hi1, hi2, hi3, hi4, hd] at h
                    | some tail =>
                      obtain ⟨b1, k1⟩ := base64Index_sound c1 i1 hi1
                      obtain ⟨b2, k2⟩ := base64Index_sound c2 i2 hi2
                      obtain ⟨b3, k3⟩ := base64Index_sound c3 i3 hi3
                      obtain ⟨b4, k4⟩ := base64Index_sound c4 i4 hi4
                      simp only [hi1, hi2, hi3, hi4, hd] at h
                      injection h with h
                      subst h
                      have hrec := ih rest tail (by simp at hlen; omega) hd
                      have hv1 := toByte_val_of_lt (i1 * 4 + i2 / 16) (by omega)
                      have hv2 := toByte_val_of_lt (i2 % 16 * 16 + i3 / 4) (by omega)
                      have hv3 := toByte_val_of_lt (i3 % 4 * 64 + i4) (by omega)
                      have q1 : (i1 * 4 + i2 / 16) / 4 = i1 := by omega
                      have q2 : (i1 * 4 + i2 / 16) % 4 * 16 + (i2 % 16 * 16 + i3 / 4) / 16
                          = i2 := by omega
                      have q3 : (i2 % 16 * 16 + i3 / 4) % 16 * 4 + (i3 % 4 * 64 + i4) / 64
                          = i3 := by omega
                      have q4 : (i3 % 4 * 64 + i4) % 64 = i4 := by omega
                      simp [base64Encode, hv1, hv2, hv3, q1, q2, q3, q4, k1, k2, k3, k4, hrec]

theorem base64Encode_of_base64Decode (s bs : List Byte) (h : base64Decode s = some bs) :
    base64Encode bs = s :=
  base64Encode_of_base64Decode_aux s.length s bs (Nat.le_refl _) h

end pichi.crypto

namespace pichi.net

/-- C1: the constant `detail::HEADER_LIMIT` is exactly 1,048,576, that is 2^20: the
product `1024 * 1024` stays below 2^32, so neither the multiplication of the two
`unsigned long` literals (64 or 32 bits wide) nor the conversion to `uint32_t`
wraps, and the value read back is 1048576. -/
theorem C1_header_limit_value :
    detail.HEADER_LIMIT = 1048576 ∧ detail.HEADER_LIMIT = 2 ^ 20 ∧
      1024 * 1024 < 2 ^ 32 ∧ detail.toUInt32 (1024 * 1024) = 1024 * 1024 ∧
      detail.headerLimitFor 64 = 1048576 ∧ detail.headerLimitFor 32 = 1048576 := by
  decide

/-- C2: whatever the stream constructor, the default parsers, the credentials and
the stream arguments, both parsers of a freshly constructed `HttpIngress` have the
header limit `HEADER_LIMIT` = 1,048,576 and the body limit 2^64 - 1. -/
theorem C2_ingress_parser_limits {Stream Args : Type} (construct : Args → Stream × Args)
    (reqParser0 : detail.RequestParser) (respParser0 : detail.ResponseParser)
    (credentials : Credentials) (args : Args) :
    (HttpIngress.ctor construct reqParser0 respParser0 credentials args).reqParser_.header_limit_
        = detail.HEADER_LIMIT ∧
      (HttpIngress.ctor construct reqParser0 respParser0 credentials args).reqParser_.header_limit_
        = 1048576 ∧
      (HttpIngress.ctor construct reqParser0 respParser0 credentials args).reqParser_.body_limit_
        = 2 ^ 64 - 1 ∧
      (HttpIngress.ctor construct reqParser0 respParser0 credentials args).respParser_.header_limit_
        = detail.HEADER_LIMIT ∧
      (HttpIngress.ctor construct reqParser0 respParser0 credentials args).respParser_.header_limit_
        = 1048576 ∧
      (HttpIngress.ctor construct reqParser0 respParser0 credentials args).respParser_.body_limit_
        = 2 ^ 64 - 1 := by
  simp only [HttpIngress.ctor, detail.Parser.header_limit, detail.Parser.body_limit]
  decide

/-- C3: whatever the stream constructor, the default parsers, the optional
credential and the stream arguments, both parsers of a freshly constructed
`HttpEgress` have the header limit `HEADER_LIMIT` = 1,048,576 and the body limit
2^64 - 1, the limits of `HttpIngress`. -/
theorem C3_egress_parser_limits {Stream Args : Type} (construct : Args → Stream × Args)
    (reqParser0 : detail.RequestParser) (respParser0 : detail.ResponseParser)
    (credential : Option Credential) (args : Args) :
    (HttpEgress.ctor construct reqParser0 respParser0 credential args).reqParser_.header_limit_
        = detail.HEADER_LIMIT ∧
      (HttpEgress.ctor construct reqParser0 respParser0 credential args).reqParser_.header_limit_
        = 1048576 ∧
      (HttpEgress.ctor construct reqParser0 respParser0 credential args).reqParser_.body_limit_
        = 2 ^ 64 - 1 ∧
      (HttpEgress.ctor construct reqParser0 respParser0 credential args).respParser_.header_limit_
        = detail.HEADER_LIMIT ∧
      (HttpEgress.ctor construct reqParser0 respParser0 credential args).respParser_.header_limit_
        = 1048576 ∧
      (HttpEgress.ctor construct reqParser0 respParser0 credential args).respParser_.body_limit_
        = 2 ^ 64 - 1 ∧
      (∀ (S A : Type) (c : A → S × A) (creds : Credentials) (a : A),
        (HttpEgress.ctor construct reqParser0 respParser0 credential args).reqParser_
            = (HttpIngress.ctor c reqParser0 respParser0 creds a).reqParser_ ∧
          (HttpEgress.ctor construct reqParser0 respParser0 credential args).respParser_
            = (HttpIngress.ctor c reqParser0 respParser0 creds a).respParser_) := by
  refine ⟨?_, ?_, ?_, ?_, ?_, ?_, fun S A c creds a => ⟨rfl, rfl⟩⟩ <;>
    (simp only [HttpEgress.ctor, detail.Parser.header_limit, detail.Parser.body_limit]
     decide)

/-- C8: `detail::badInvoking` fails with the message "Bad invocation" for every
argument list and never returns a value; so the callbacks `confirm_`, `send_` and
`recv_` of a freshly constructed `HttpIngress` and the callbacks `send_` and
`recv_` of a freshly constructed `HttpEgress` fail with "Bad invocation" on every
input. -/
theorem C8_bad_invocation {R A Stream Args : Type} (a : A)
    (construct : Args → Stream × Args)
    (reqParser0 : detail.RequestParser) (respParser0 : detail.ResponseParser)
    (credentials : Credentials) (credential : Option Credential) (args : Args)
    (buf : List Byte) (yield : Yield) :
    (detail.badInvoking a : Except Exception R)
        = Except.error { error := PichiError.MISC, message := "Bad invocation" } ∧
      (∀ r : R, (detail.badInvoking a : Except Exception R) ≠ Except.ok r) ∧
      (HttpIngress.ctor construct reqParser0 respParser0 credentials args).confirm_ yield
        = Except.error { error := PichiError.MISC, message := "Bad invocation" } ∧
      (HttpIngress.ctor construct reqParser0 respParser0 credentials args).send_ buf yield
        = Except.error { error := PichiError.MISC, message := "Bad invocation" } ∧
      (HttpIngress.ctor construct reqParser0 respParser0 credentials args).recv_ buf yield
        = Except.error { error := PichiError.MISC, message := "Bad invocation" } ∧
      (HttpEgress.ctor construct reqParser0 respParser0 credential args).send_ buf yield
        = Except.error { error := PichiError.MISC, message := "Bad invocation" } ∧
      (HttpEgress.ctor construct reqParser0 respParser0 credential args).recv_ buf yield
        = Except.error { error := PichiError.MISC, message := "Bad invocation" } := by
  refine ⟨rfl, ?_, rfl, rfl, rfl, rfl, rfl⟩
  intro r h
  simp [detail.badInvoking, fail] at h

/-- C9: whatever the stream constructor, the default parsers, the optional
credential and the stream arguments, the pointer `stream_` of a freshly constructed
`HttpEgress` is the address of `origin_`: it is neither null nor the address of
`backup_`. -/
theorem C9_selector_is_origin {Stream Args : Type} (construct : Args → Stream × Args)
    (reqParser0 : detail.RequestParser) (respParser0 : detail.ResponseParser)
    (credential : Option Credential) (args : Args) :
    (HttpEgress.ctor construct reqParser0 respParser0 credential args).stream_
        = StreamPtr.origin ∧
      (HttpEgress.ctor construct reqParser0 respParser0 credential args).stream_
        ≠ StreamPtr.backup ∧
      (HttpEgress.ctor construct reqParser0 respParser0 credential args).stream_
        ≠ StreamPtr.null := by
  simp [HttpEgress.ctor]

/-- The two streams of `HttpEgress` are built from the same argument values when
the constructor of the stream leaves the forwarded arguments as they were. -/
theorem HttpEgress_ctor_streams_of_preserving {Stream Args : Type}
    (construct : Args → Stream × Args)
    (reqParser0 : detail.RequestParser) (respParser0 : detail.ResponseParser)
    (credential : Option Credential) (args : Args)
    (hkeep : (construct args).2 = args) :
    (HttpEgress.ctor construct reqParser0 respParser0 credential args).origin_
        = (construct args).1 ∧
      (HttpEgress.ctor construct reqParser0 respParser0 credential args).backup_
        = (construct args).1 := by
  simp [HttpEgress.ctor, hkeep]

/-- The constructor of `HttpEgress` stores the credential it is given. -/
theorem HttpEgress_ctor_credential {Stream Args : Type}
    (construct : Args → Stream × Args)
    (reqParser0 : detail.RequestParser) (respParser0 : detail.ResponseParser)
    (credential : Option Credential) (args : Args) :
    (HttpEgress.ctor construct reqParser0 respParser0 credential args).credential_
      = credential := rfl

/-- C10: the constructor of `HttpEgress` forwards the argument pack twice, so a
stream constructor that moves from an rvalue argument builds `origin_` from the
value passed in and `backup_` from the moved-from value: for a stream owning the
resource 7, `origin_` holds the resource, `backup_` holds none, and the two
streams differ. -/
theorem C10_backup_built_from_moved_arguments :
    (HttpEgress.ctor OwningStream.construct sampleRequestParser sampleResponseParser
        none (some 7)).origin_ = { resource := some 7 } ∧
      (HttpEgress.ctor OwningStream.construct sampleRequestParser sampleResponseParser
        none (some 7)).backup_ = { resource := none } ∧
      (HttpEgress.ctor OwningStream.construct sampleRequestParser sampleResponseParser
        none (some 7)).origin_ ≠
      (HttpEgress.ctor OwningStream.construct sampleRequestParser sampleResponseParser
        none (some 7)).backup_ := by
  decide

end pichi.net

namespace pichi.net.detail

theorem findTerminator_append :
    ∀ (a b : Str) (i : Nat), findTerminator a = some i → findTerminator (a ++ b) = some i
  | [], _, _, h => by simp [findTerminator] at h
  | [_], _, _, h => by simp [findTerminator] at h
  | [_, _], _, _, h => by simp [findTerminator] at h
  | [_, _, _], _, _, h => by simp [findTerminator] at h
  | x :: y :: z :: w :: rest, b, i, h => by
      simp only [List.cons_append, findTerminator, List.append_eq] at h ⊢
      by_cases hc : x = 13 ∧ y = 10 ∧ z = 13 ∧ w = 10
      · rw [if_pos hc] at h ⊢
        exact h
      · rw [if_neg hc] at h ⊢
        cases hj : findTerminator (y :: z :: w :: rest) with
        | none => simp [hj] at h
        | some j =>
            have ih := findTerminator_append (y :: z :: w :: rest) b j hj
            simp only [List.cons_append] at ih
            rw [hj] at h
            rw [ih]
            exact h

theorem findTerminator_none_of_no_CR :
    ∀ l : Str, (∀ x ∈ l, x ≠ 13) → findTerminator l = none
  | [], _ => by simp [findTerminator]
  | [_], _ => by simp [findTerminator]
  | [_, _], _ => by simp [findTerminator]
  | [_, _, _], _ => by simp [findTerminator]
  | x :: y :: z :: w :: rest, h => by
      have hx : x ≠ 13 := h x (by simp)
      have ih := findTerminator_none_of_no_CR (y :: z :: w :: rest)
        (fun v hv => h v (List.mem_cons_of_mem _ hv))
      simp [findTerminator, hx, ih]

theorem readHeader_too_large {b : Bool} (p : Parser b) (grammar : Str → Option (Header b)) :
    ∀ (chunks : List Str) (k : Nat) (cache : Cache),
      cache.length ≤ p.header_limit_ →
      p.header_limit_ < (cache ++ (chunks.take k).flatten).length →
      (∀ i, findTerminator (cache ++ (chunks.take k).flatten) = some i →
        p.header_limit_ < i + 4) →
      readHeader p grammar cache chunks = failWith PichiError.HeaderTooLarge
  | [], k, cache, h0, h1, _ => by
      simp at h1
      omega
  | chunk :: rest, 0, cache, h0, h1, _ => by
      simp at h1
      omega
  | chunk :: rest, k + 1, cache, h0, h1, h2 => by
      simp only [List.take_succ_cons, List.flatten_cons, ← List.append_assoc] at h1 h2
      rw [readHeader, Parser.put]
      cases ht : findTerminator (cache ++ chunk) with
      | some i =>
          have hacc := findTerminator_append (cache ++ chunk) (rest.take k).flatten i ht
          have hlt := h2 i hacc
          simp only [if_pos hlt]
          rfl
      | none =>
          by_cases hl : p.header_limit_ < (cache ++ chunk).length
          · simp only [if_pos hl]
            rfl
          · simp only [if_neg hl]
            exact readHeader_too_large p grammar rest k (cache ++ chunk) (by omega) h1 h2

end pichi.net.detail

namespace pichi.net

/-- C4: when the bytes accumulated from the stream exceed 1,048,576 and any header
terminator among them ends beyond that bound, reading the header fails with
`HeaderTooLarge`, for the request parser and the response parser of a freshly
constructed `HttpIngress` and `HttpEgress` alike, whatever the header grammar and
whatever bytes the stream delivers afterwards. -/
theorem C4_header_too_large {Stream Args : Type} (construct : Args → Stream × Args)
    (reqParser0 : detail.RequestParser) (respParser0 : detail.ResponseParser)
    (credentials : Credentials) (credential : Option Credential) (args : Args)
    (requestGrammar : Str → Option (detail.Header true))
    (responseGrammar : Str → Option (detail.Header false))
    (chunks : List Str) (k : Nat)
    (hlong : 1048576 < ((chunks.take k).flatten).length)
    (hterm : ∀ i, detail.findTerminator (chunks.take k).flatten = some i → 1048576 < i + 4) :
    detail.readHeader
        (HttpIngress.ctor construct reqParser0 respParser0 credentials args).reqParser_
        requestGrammar
        (HttpIngress.ctor construct reqParser0 respParser0 credentials args).reqCache_ chunks
        = Except.error { error := PichiError.HeaderTooLarge, message := "" } ∧
      detail.readHeader
        (HttpIngress.ctor construct reqParser0 respParser0 credentials args).respParser_
        responseGrammar
        (HttpIngress.ctor construct reqParser0 respParser0 credentials args).respCache_ chunks
        = Except.error { error := PichiError.HeaderTooLarge, message := "" } ∧
      detail.readHeader
        (HttpEgress.ctor construct reqParser0 respParser0 credential args).reqParser_
        requestGrammar
        (HttpEgress.ctor construct reqParser0 respParser0 credential args).reqCache_ chunks
        = Except.error { error := PichiError.HeaderTooLarge, message := "" } ∧
      detail.readHeader
        (HttpEgress.ctor construct reqParser0 respParser0 credential args).respParser_
        responseGrammar
        (HttpEgress.ctor construct reqParser0 respParser0 credential args).respCache_ chunks
        = Except.error { error := PichiError.HeaderTooLarge, message := "" } := by
  have hL : detail.HEADER_LIMIT % 2 ^ 32 = 1048576 := by decide
  refine ⟨?_, ?_, ?_, ?_⟩
  · exact detail.readHeader_too_large _ requestGrammar chunks k []
      (by simp)
      (by simpa [HttpIngress.ctor, detail.Parser.header_limit, detail.Parser.body_limit, hL]
        using hlong)
      (by simpa [HttpIngress.ctor, detail.Parser.header_limit, detail.Parser.body_limit, hL]
        using hterm)
  · exact detail.readHeader_too_large _ responseGrammar chunks k []
      (by simp)
      (by simpa [HttpIngress.ctor, detail.Parser.header_limit, detail.Parser.body_limit, hL]
        using hlong)
      (by simpa [HttpIngress.ctor, detail.Parser.header_limit, detail.Parser.body_limit, hL]
        using hterm)
  · exact detail.readHeader_too_large _ requestGrammar chunks k []
      (by simp)
      (by simpa [HttpEgress.ctor, detail.Parser.header_limit, detail.Parser.body_limit, hL]
        using hlong)
      (by simpa [HttpEgress.ctor, detail.Parser.header_limit, detail.Parser.body_limit, hL]
        using hterm)
  · exact detail.readHeader_too_large _ responseGrammar chunks k []
      (by simp)
      (by simpa [HttpEgress.ctor, detail.Parser.header_limit, detail.Parser.body_limit, hL]
        using hlong)
      (by simpa [HttpEgress.ctor, detail.Parser.header_limit, detail.Parser.body_limit, hL]
        using hterm)

/-- C4, at a concrete input: one chunk of `HEADER_LIMIT + 1` = 1,048,577 bytes `A`
with no terminator. -/
theorem C4_header_too_large_witness :
    (1048576 < (([oversizedChunk].take 1).flatten).length ∧
      ∀ i, detail.findTerminator ([oversizedChunk].take 1).flatten = some i →
        1048576 < i + 4) ∧
    detail.readHeader
        (HttpIngress.ctor PlainStream.construct sampleRequestParser sampleResponseParser
          [] 1).reqParser_
        (fun _ => none)
        (HttpIngress.ctor PlainStream.construct sampleRequestParser sampleResponseParser
          [] 1).reqCache_ [oversizedChunk]
        = Except.error { error := PichiError.HeaderTooLarge, message := "" } := by
  have hflat : ([oversizedChunk].take 1).flatten = oversizedChunk := by
    simp
  have hnone : detail.findTerminator ([oversizedChunk].take 1).flatten = none := by
    rw [hflat]
    apply detail.findTerminator_none_of_no_CR
    intro x hx
    rw [oversizedChunk] at hx
    rw [List.eq_of_mem_replicate hx]
    decide
  have hlong : 1048576 < (([oversizedChunk].take 1).flatten).length := by
    rw [hflat, oversizedChunk, List.length_replicate]
    decide
  have hterm : ∀ i,
      detail.findTerminator ([oversizedChunk].take 1).flatten = some i →
        1048576 < i + 4 := by
    intro i hi
    rw [hnone] at hi
    exact absurd hi (by simp)
  exact ⟨⟨hlong, hterm⟩,
    (C4_header_too_large PlainStream.construct sampleRequestParser sampleResponseParser
      [] none 1 (fun _ => none) (fun _ => none)
      [oversizedChunk] 1 hlong hterm).1⟩

end pichi.net

namespace pichi.net.detail

theorem stripLeading_eq_some_iff :
    ∀ (pre s x : Str), stripLeading pre s = some x ↔ s = pre ++ x
  | [], s, x => by
      simp [stripLeading]
  | _ :: _, [], x => by simp [stripLeading]
  | a :: pre, c :: cs, x => by
      by_cases hac : a = c
      · subst hac
        simp [stripLeading, stripLeading_eq_some_iff pre cs x]
      · simp [stripLeading, hac]
        intro h
        exact absurd h.symm hac

theorem splitCredential_eq_some_iff :
    ∀ (s user password : Str),
      splitCredential s = some (user, password) ↔ COLON ∉ user ∧ s = user ++ COLON :: password
  | [], user, password => by simp [splitCredential]
  | c :: rest, user, password => by
      by_cases hc : c = COLON
      · subst hc
        simp only [splitCredential, if_true]
        constructor
        · intro h
          injection h with h
          injection h with h1 h2
          subst h1
          subst h2
          simp
        · rintro ⟨hn, he⟩
          cases user with
          | nil =>
              simp at he
              simp [he]
          | cons u us =>
              simp at he
              exact absurd (by simp [he.1]) hn
      · simp only [splitCredential, if_neg hc]
        cases hr : splitCredential rest with
        | none =>
            simp only [Option.map_none']
            constructor
            · intro h
              exact absurd h (by simp)
            · rintro ⟨hn, he⟩
              cases user with
              | nil =>
                  simp at he
                  exact absurd he.1 hc
              | cons u us =>
                  simp at he
                  have hn2 : COLON ∉ us := fun hm => hn (List.mem_cons_of_mem _ hm)
                  have := (splitCredential_eq_some_iff rest us password).mpr ⟨hn2, he.2⟩
                  rw [hr] at this
                  exact absurd this (by simp)
        | some up =>
            obtain ⟨u0, p0⟩ := up
            have ih := (splitCredential_eq_some_iff rest u0 p0).mp hr
            simp only [Option.map_some']
            constructor
            · intro h
              injection h with h
              injection h with h1 h2
              subst h1
              subst h2
              refine ⟨?_, by simp [ih.2]⟩
              intro hm
              rcases List.mem_cons.mp hm with hm | hm
              · exact hc hm.symm
              · exact ih.1 hm
            · rintro ⟨hn, he⟩
              cases user with
              | nil =>
                  simp at he
                  exact absurd he.1 hc
              | cons u us =>
                  simp at he
                  have hn2 : COLON ∉ us := fun hm => hn (List.mem_cons_of_mem _ hm)
                  have := (splitCredential_eq_some_iff rest us password).mpr ⟨hn2, he.2⟩
                  rw [hr] at this
                  injection this with this
                  injection this with t1 t2
                  subst t1
                  subst t2
                  rw [he.1]

end pichi.net.detail

namespace pichi.net

theorem HttpIngress_authenticate_ok_iff {Stream : Type} (self : HttpIngress Stream)
    (header : detail.Header true) :
    self.authenticate header = Except.ok () ↔
      ∃ user password : Str, COLON ∉ user ∧
        header.find Field.proxy_authorization
          = some (BASIC ++ crypto.base64Encode (user ++ [COLON] ++ password)) ∧
        self.credentials_.lookup user = some password := by
  unfold HttpIngress.authenticate
  constructor
  · intro h
    cases hf : header.find Field.proxy_authorization with
    | none => simp [hf, failWith] at h
    | some value =>
      cases hs : detail.stripLeading BASIC value with
      | none => simp [hf, hs, failWith] at h
      | some encoded =>
        cases hd : crypto.base64Decode encoded with
        | none => simp [hf, hs, hd, failWith] at h
        | some plain =>
          cases hc : detail.splitCredential plain with
          | none => simp [hf, hs, hd, hc, failWith] at h
          | some up =>
            obtain ⟨user, password⟩ := up
            simp only [hf, hs, hd, hc] at h
            by_cases hl : self.credentials_.lookup user = some password
            · have e1 := (detail.stripLeading_eq_some_iff BASIC value encoded).mp hs
              have e2 := crypto.base64Encode_of_base64Decode encoded plain hd
              have e3 := (detail.splitCredential_eq_some_iff plain user password).mp hc
              refine ⟨user, password, e3.1, ?_, hl⟩
              rw [e1, ← e2, e3.2]
              simp
            · rw [if_neg hl] at h
              simp [failWith] at h
  · rintro ⟨user, password, hn, hf, hl⟩
    have hs : detail.stripLeading BASIC
        (BASIC ++ crypto.base64Encode (user ++ [COLON] ++ password))
        = some (crypto.base64Encode (user ++ [COLON] ++ password)) :=
      (detail.stripLeading_eq_some_iff _ _ _).mpr rfl
    have hd := crypto.base64Decode_base64Encode (user ++ [COLON] ++ password)
    have hc : detail.splitCredential (user ++ [COLON] ++ password) = some (user, password) :=
      (detail.splitCredential_eq_some_iff _ _ _).mpr ⟨hn, by simp⟩
    simp only [hf, hs, hd, hc, hl, if_true]
    rfl

end pichi.net

namespace pichi.net

theorem Except_pure_eq_ok {ε α : Type} (a : α) : (pure a : Except ε α) = Except.ok a := rfl

theorem HttpIngress_authenticate_cases {Stream : Type} (self : HttpIngress Stream)
    (header : detail.Header true) :
    self.authenticate header = Except.ok () ∨
      self.authenticate header
        = Except.error { error := PichiError.AuthenticationFailed, message := "" } := by
  unfold HttpIngress.authenticate
  cases hf : header.find Field.proxy_authorization with
  | none => exact Or.inr rfl
  | some value =>
    cases hs : detail.stripLeading BASIC value with
    | none =>
        simp only [hs]
        exact Or.inr rfl
    | some encoded =>
      cases hd : crypto.base64Decode encoded with
      | none =>
          simp only [hs, hd]
          exact Or.inr rfl
      | some plain =>
        cases hc : detail.splitCredential plain with
        | none =>
            simp only [hs, hd, hc]
            exact Or.inr rfl
        | some up =>
          obtain ⟨user, password⟩ := up
          simp only [hs, hd, hc]
          by_cases hl : self.credentials_.lookup user = some password
          · left
            simp only [hl, if_true]
            rfl
          · right
            simp only [hl, if_false]
            rfl

/-- C5: for an `HttpIngress` constructed with a non-empty credentials mapping,
authentication of a request header succeeds exactly when its `Proxy-Authorization`
header is `Basic <base64(username:password)>` for a user name (without colon) that
the mapping sends to that password.  When it does not succeed, handling the request
fails and closes the adapter without a tunnel, with `AuthenticationFailed` and a
407 response for a CONNECT request whose target parses; when it succeeds, such a
request is answered 200 and the adapter tunnels. -/
theorem C5_authentication {Stream Args : Type} (construct : Args → Stream × Args)
    (reqParser0 : detail.RequestParser) (respParser0 : detail.ResponseParser)
    (credentials : Credentials) (args : Args)
    (parseEndpoint : Str → Option Endpoint) (req : detail.Header true)
    (hne : credentials ≠ []) :
    ((HttpIngress.ctor construct reqParser0 respParser0 credentials args).authenticate req
        = Except.ok () ↔
      ∃ user password : Str, COLON ∉ user ∧
        req.find Field.proxy_authorization
          = some (BASIC ++ crypto.base64Encode (user ++ [COLON] ++ password)) ∧
        credentials.lookup user = some password) ∧
    ((HttpIngress.ctor construct reqParser0 respParser0 credentials args).authenticate req
        ≠ Except.ok () →
      (HttpIngress.confirmRequest parseEndpoint (IngressSession.fresh
          (HttpIngress.ctor construct reqParser0 respParser0 credentials args)) req).1
        ≠ Except.ok () ∧
      (HttpIngress.confirmRequest parseEndpoint (IngressSession.fresh
          (HttpIngress.ctor construct reqParser0 respParser0 credentials args)) req).2.state
        = IngressState.Closed ∧
      (HttpIngress.confirmRequest parseEndpoint (IngressSession.fresh
          (HttpIngress.ctor construct reqParser0 respParser0 credentials args)) req).2.remote
        = none ∧
      (req.method = Verb.connect → (parseEndpoint req.target).isSome = true →
        (HttpIngress.confirmRequest parseEndpoint (IngressSession.fresh
            (HttpIngress.ctor construct reqParser0 respParser0 credentials args)) req).1
          = Except.error { error := PichiError.AuthenticationFailed, message := "" } ∧
        (HttpIngress.confirmRequest parseEndpoint (IngressSession.fresh
            (HttpIngress.ctor construct reqParser0 respParser0 credentials args)) req).2.written
          = [407])) ∧
    ((HttpIngress.ctor construct reqParser0 respParser0 credentials args).authenticate req
        = Except.ok () →
      req.method = Verb.connect → ∀ remote, parseEndpoint req.target = some remote →
        (HttpIngress.confirmRequest parseEndpoint (IngressSession.fresh
            (HttpIngress.ctor construct reqParser0 respParser0 credentials args)) req).1
          = Except.ok () ∧
        (HttpIngress.confirmRequest parseEndpoint (IngressSession.fresh
            (HttpIngress.ctor construct reqParser0 respParser0 credentials args)) req).2.state
          = IngressState.Tunneling ∧
        (HttpIngress.confirmRequest parseEndpoint (IngressSession.fresh
            (HttpIngress.ctor construct reqParser0 respParser0 credentials args)) req).2.remote
          = some remote ∧
        (HttpIngress.confirmRequest parseEndpoint (IngressSession.fresh
            (HttpIngress.ctor construct reqParser0 respParser0 credentials args)) req).2.written
          = [200]) := by
  have hcred : (HttpIngress.ctor construct reqParser0 respParser0 credentials args).credentials_
      = credentials := rfl
  have hfresh : (IngressSession.fresh
      (HttpIngress.ctor construct reqParser0 respParser0 credentials args)).ingress
      = HttpIngress.ctor construct reqParser0 respParser0 credentials args := rfl
  refine ⟨?_, ?_, ?_⟩
  · rw [HttpIngress_authenticate_ok_iff, hcred]
  · intro hfail
    have herr := (HttpIngress_authenticate_cases
      (HttpIngress.ctor construct reqParser0 respParser0 credentials args) req).resolve_left hfail
    unfold HttpIngress.confirmRequest
    by_cases hm : req.method = Verb.connect
    · cases ht : parseEndpoint req.target with
      | none =>
          simp [hm, IngressSession.reject, IngressSession.fresh]
      | some remote =>
          simp [hm, hfresh, hcred, hne, herr, IngressSession.reject,
            IngressSession.fresh, errorStatus]
    · simp [hm, IngressSession.reject, IngressSession.fresh]
  · intro hok hm remote ht
    unfold HttpIngress.confirmRequest
    simp [hm, ht, hfresh, hcred, hne, hok, IngressSession.fresh, Except_pure_eq_ok]

/-- C5, at a concrete input: the mapping `{alice: secret}` accepts
`Proxy-Authorization: Basic YWxpY2U6c2VjcmV0` and tunnels, and handling the same
request with the password `wrong` (`YWxpY2U6d3Jvbmc=`) is rejected with
`AuthenticationFailed`, a 407 response and no tunnel. -/
theorem C5_authentication_witness :
    aliceCredentials ≠ [] ∧
    crypto.base64Encode (ofString "alice:secret") = ofString "YWxpY2U6c2VjcmV0" ∧
    crypto.base64Encode (ofString "alice:wrong") = ofString "YWxpY2U6d3Jvbmc=" ∧
    (HttpIngress.ctor PlainStream.construct sampleRequestParser sampleResponseParser
        aliceCredentials 1).authenticate (connectWith "Basic YWxpY2U6c2VjcmV0")
      = Except.ok () ∧
    (HttpIngress.confirmRequest sampleParseEndpoint (IngressSession.fresh
        (HttpIngress.ctor PlainStream.construct sampleRequestParser sampleResponseParser
          aliceCredentials 1)) (connectWith "Basic YWxpY2U6c2VjcmV0")).2.state
      = IngressState.Tunneling ∧
    (HttpIngress.confirmRequest sampleParseEndpoint (IngressSession.fresh
        (HttpIngress.ctor PlainStream.construct sampleRequestParser sampleResponseParser
          aliceCredentials 1)) (connectWith "Basic YWxpY2U6d3Jvbmc=")).1
      = Except.error { error := PichiError.AuthenticationFailed, message := "" } ∧
    (HttpIngress.confirmRequest sampleParseEndpoint (IngressSession.fresh
        (HttpIngress.ctor PlainStream.construct sampleRequestParser sampleResponseParser
          aliceCredentials 1)) (connectWith "Basic YWxpY2U6d3Jvbmc=")).2.state
      = IngressState.Closed := by
  have hne : aliceCredentials ≠ [] := by decide
  have good := C5_authentication PlainStream.construct sampleRequestParser
    sampleResponseParser aliceCredentials 1 sampleParseEndpoint
    (connectWith "Basic YWxpY2U6c2VjcmV0") hne
  have bad := C5_authentication PlainStream.construct sampleRequestParser
    sampleResponseParser aliceCredentials 1 sampleParseEndpoint
    (connectWith "Basic YWxpY2U6d3Jvbmc=") hne
  have hok := good.1.mpr ⟨ofString "alice", ofString "secret", by decide, by decide, by decide⟩
  have hbad : (HttpIngress.ctor PlainStream.construct sampleRequestParser sampleResponseParser
      aliceCredentials 1).authenticate (connectWith "Basic YWxpY2U6d3Jvbmc=")
      ≠ Except.ok () := by
    rw [show (HttpIngress.ctor PlainStream.construct sampleRequestParser sampleResponseParser
      aliceCredentials 1).authenticate (connectWith "Basic YWxpY2U6d3Jvbmc=")
      = Except.error { error := PichiError.AuthenticationFailed, message := "" } from rfl]
    simp
  have hb := bad.2.1 hbad
  exact ⟨hne, by decide, by decide, hok, (good.2.2 hok rfl _ rfl).2.1, (hb.2.2.2 rfl rfl).1,
    hb.2.1⟩

/-- C6: for an `HttpIngress` constructed with an empty credentials mapping, every
CONNECT request (with a target that parses as host:port) that has no
`Proxy-Authorization` header is accepted: it is answered 200 and the adapter
tunnels to the parsed target.  Authentication is disabled: no request at all fails
with `AuthenticationFailed`. -/
theorem C6_empty_credentials_accept {Stream Args : Type} (construct : Args → Stream × Args)
    (reqParser0 : detail.RequestParser) (respParser0 : detail.ResponseParser)
    (args : Args) (parseEndpoint : Str → Option Endpoint) (req : detail.Header true)
    (remote : Endpoint)
    (hm : req.method = Verb.connect)
    (_hnone : req.find Field.proxy_authorization = none)
    (ht : parseEndpoint req.target = some remote) :
    (HttpIngress.confirmRequest parseEndpoint (IngressSession.fresh
        (HttpIngress.ctor construct reqParser0 respParser0 [] args)) req).1 = Except.ok () ∧
    (HttpIngress.confirmRequest parseEndpoint (IngressSession.fresh
        (HttpIngress.ctor construct reqParser0 respParser0 [] args)) req).2.state
      = IngressState.Tunneling ∧
    (HttpIngress.confirmRequest parseEndpoint (IngressSession.fresh
        (HttpIngress.ctor construct reqParser0 respParser0 [] args)) req).2.remote
      = some remote ∧
    (HttpIngress.confirmRequest parseEndpoint (IngressSession.fresh
        (HttpIngress.ctor construct reqParser0 respParser0 [] args)) req).2.written = [200] ∧
    (∀ (other : detail.Header true) (e : Exception),
      (HttpIngress.confirmRequest parseEndpoint (IngressSession.fresh
          (HttpIngress.ctor construct reqParser0 respParser0 [] args)) other).1
        = Except.error e → e.error ≠ PichiError.AuthenticationFailed) := by
  have hcred : (IngressSession.fresh
      (HttpIngress.ctor construct reqParser0 respParser0 [] args)).ingress.credentials_
      = [] := rfl
  have hcred0 : (HttpIngress.ctor construct reqParser0 respParser0 [] args).credentials_
      = [] := rfl
  refine ⟨?_, ?_, ?_, ?_, ?_⟩
  · simp [HttpIngress.confirmRequest, hm, ht, hcred, Except_pure_eq_ok]
  · simp [HttpIngress.confirmRequest, hm, ht, hcred, Except_pure_eq_ok]
  · simp [HttpIngress.confirmRequest, hm, ht, hcred, Except_pure_eq_ok]
  · simp [HttpIngress.confirmRequest, hm, ht, hcred0, IngressSession.fresh, Except_pure_eq_ok]
  · intro other e he
    unfold HttpIngress.confirmRequest at he
    by_cases hmo : other.method = Verb.connect
    · cases hto : parseEndpoint other.target with
      | none =>
          simp [hmo, hto, IngressSession.reject] at he
          rw [← he]
          decide
      | some r =>
          simp [hmo, hto, hcred, Except_pure_eq_ok] at he
    · simp [hmo, IngressSession.reject] at he
      rw [← he]
      decide

/-- C6, at a concrete input: `CONNECT example.com:443` without a
`Proxy-Authorization` header, on an adapter without credentials. -/
theorem C6_empty_credentials_accept_witness :
    (connectPlain.method = Verb.connect ∧
      connectPlain.find Field.proxy_authorization = none ∧
      sampleParseEndpoint connectPlain.target
        = some { host := ofString "example.com", port := 443 }) ∧
    (HttpIngress.confirmRequest sampleParseEndpoint (IngressSession.fresh
        (HttpIngress.ctor PlainStream.construct sampleRequestParser sampleResponseParser
          [] 1)) connectPlain).1 = Except.ok () ∧
    (HttpIngress.confirmRequest sampleParseEndpoint (IngressSession.fresh
        (HttpIngress.ctor PlainStream.construct sampleRequestParser sampleResponseParser
          [] 1)) connectPlain).2.state = IngressState.Tunneling :=
  have h := C6_empty_credentials_accept PlainStream.construct sampleRequestParser
    sampleResponseParser 1 sampleParseEndpoint connectPlain
    { host := ofString "example.com", port := 443 } rfl (by decide) (by decide)
  ⟨⟨rfl, by decide, by decide⟩, h.1, h.2.1⟩

/-- C7: when the endpoint requires a handshake, the transport connects and the
upstream replies with a status code outside 200..299, `connect` on a freshly
constructed `HttpEgress` fails with `ProxyConnectFailed` carrying exactly that
status code; afterwards the adapter is closed, both streams are closed, it is
neither readable nor writable, and `recv` and `send` fail on every input. -/
theorem C7_proxy_connect_failed {Stream Args : Type} (construct : Args → Stream × Args)
    (reqParser0 : detail.RequestParser) (respParser0 : detail.ResponseParser)
    (credential : Option Credential) (args : Args) (io : StreamIO Stream)
    (endpoint next : Endpoint) (up : Upstream) (response : detail.Header false)
    (hreach : up.reachable = true) (hhandshake : up.handshake = true)
    (hreply : up.reply = Except.ok response)
    (hstatus : ¬ (200 ≤ response.status ∧ response.status < 300)) :
    (HttpEgress.connect io (EgressSession.fresh
        (HttpEgress.ctor construct reqParser0 respParser0 credential args))
        endpoint next up).1
      = Except.error { error := PichiError.ProxyConnectFailed response.status, message := "" } ∧
    (HttpEgress.connect io (EgressSession.fresh
        (HttpEgress.ctor construct reqParser0 respParser0 credential args))
        endpoint next up).2.state = EgressState.Closed ∧
    (HttpEgress.connect io (EgressSession.fresh
        (HttpEgress.ctor construct reqParser0 respParser0 credential args))
        endpoint next up).2.originOpen = false ∧
    (HttpEgress.connect io (EgressSession.fresh
        (HttpEgress.ctor construct reqParser0 respParser0 credential args))
        endpoint next up).2.backupOpen = false ∧
    HttpEgress.readable (HttpEgress.connect io (EgressSession.fresh
        (HttpEgress.ctor construct reqParser0 respParser0 credential args))
        endpoint next up).2 = false ∧
    HttpEgress.writable (HttpEgress.connect io (EgressSession.fresh
        (HttpEgress.ctor construct reqParser0 respParser0 credential args))
        endpoint next up).2 = false ∧
    (∀ (buf : MutableBuffer) (yield : Yield),
      HttpEgress.recv (HttpEgress.connect io (EgressSession.fresh
          (HttpEgress.ctor construct reqParser0 respParser0 credential args))
          endpoint next up).2 buf yield
        = Except.error { error := PichiError.MISC, message := "Bad invocation" }) ∧
    (∀ (buf : ConstBuffer) (yield : Yield),
      HttpEgress.send (HttpEgress.connect io (EgressSession.fresh
          (HttpEgress.ctor construct reqParser0 respParser0 credential args))
          endpoint next up).2 buf yield
        = Except.error { error := PichiError.MISC, message := "Bad invocation" }) := by
  have hconn : HttpEgress.connect io (EgressSession.fresh
        (HttpEgress.ctor construct reqParser0 respParser0 credential args))
        endpoint next up
      = EgressSession.abort
          { EgressSession.fresh
              (HttpEgress.ctor construct reqParser0 respParser0 credential args) with
            originOpen := true
            sent := [connectRequest credential next] }
          { error := PichiError.ProxyConnectFailed response.status, message := "" } := by
    simp [HttpEgress.connect, EgressSession.fresh, hreach, hhandshake, hreply, hstatus,
      HttpEgress.ctor]
  rw [hconn]
  refine ⟨rfl, rfl, rfl, rfl, ?_, ?_, ?_, ?_⟩
  · simp [HttpEgress.readable, EgressSession.usable, EgressSession.abort]
  · simp [HttpEgress.writable, EgressSession.usable, EgressSession.abort]
  · intro buf yield
    rfl
  · intro buf yield
    rfl

/-- C7, at a concrete input: an upstream that replies 403. -/
theorem C7_proxy_connect_failed_witness :
    ((upstreamReplying 403).reachable = true ∧ (upstreamReplying 403).handshake = true ∧
      ¬ (200 ≤ 403 ∧ 403 < 300)) ∧
    (HttpEgress.connect sampleIO (EgressSession.fresh
        (HttpEgress.ctor PlainStream.construct sampleRequestParser sampleResponseParser
          none 1))
        { host := ofString "example.com", port := 443 }
        { host := ofString "example.com", port := 443 } (upstreamReplying 403)).1
      = Except.error { error := PichiError.ProxyConnectFailed 403, message := "" } ∧
    HttpEgress.readable (HttpEgress.connect sampleIO (EgressSession.fresh
        (HttpEgress.ctor PlainStream.construct sampleRequestParser sampleResponseParser
          none 1))
        { host := ofString "example.com", port := 443 }
        { host := ofString "example.com", port := 443 } (upstreamReplying 403)).2 = false :=
  have h := C7_proxy_connect_failed PlainStream.construct sampleRequestParser
    sampleResponseParser none 1 sampleIO
    { host := ofString "example.com", port := 443 }
    { host := ofString "example.com", port := 443 } (upstreamReplying 403)
    { method := Verb.other [], target := [], status := 403, fields := [] }
    rfl rfl rfl (by decide)
  ⟨⟨rfl, rfl, by decide⟩, h.1, h.2.2.2.2.1⟩

end pichi.net
